import Mathlib

/-
  Verification of the rerpc JSON-RPC 2.0 runtime (Go) against its
  natural-language specification.

  The Go code is shallowly embedded: JSON texts are modelled by the
  inductive type Json (what encoding/json parses a byte slice into),
  and a raw byte slice handed to a decoder is modelled by RawData,
  which records the only three cases the code distinguishes: empty
  input, non-empty input that fails JSON parsing (with the parser
  error message), and non-empty input that parses to a Json value.
  Go json.RawMessage fields hold either nil (absent) or the bytes of
  a JSON value, hence Option Json; Go interface{} fields hold the
  decoded JSON value, with the nil interface identified with
  Json.null (Go unmarshals a JSON null into a nil interface).
  JSON numbers are modelled as integers (the identifiers and codes
  the claims concern are integral; float64 precision loss above 2^53
  is outside the modelled claims).
-/

namespace Rerpc

/-- A parsed JSON value, as produced by Go encoding/json. -/
inductive Json where
  | null
  | bool (b : Bool)
  | num (n : Int)
  | str (s : String)
  | arr (elems : List Json)
  | obj (fields : List (String × Json))

/-- Field lookup in a JSON object, with Go semantics: when a key is
repeated, the value decoded last wins. -/
def jGet (fields : List (String × Json)) (key : String) : Option Json :=
  match fields with
  | [] => none
  | (k, v) :: rest =>
    match jGet rest key with
    | some w => some w
    | none => if k = key then some v else none

/-- Whether a JSON value is null (pattern-level check, used for the
omitempty handling of interface-typed fields). -/
def Json.isNull : Json → Bool
  | .null => true
  | _ => false

/-- The wire protocol version constant JSONRPCVersion. -/
def JSONRPCVersion : String := "2.0"

/-- The Error record of the protocol (code, message, data).  The Go
field Data has type interface; a nil interface is Json.null here. -/
structure Error where
  code : Int
  message : String
  data : Json

/-- NewError from errors.go. -/
def NewError (code : Int) (message : String) (data : Json) : Error :=
  { code := code, message := message, data := data }

/-- NewParseError: code -32700. -/
def NewParseError (data : Json) : Error := NewError (-32700) "Parse error" data

/-- NewInvalidRequestError: code -32600. -/
def NewInvalidRequestError (data : Json) : Error := NewError (-32600) "Invalid Request" data

/-- NewMethodNotFoundError: code -32601, data is the method string. -/
def NewMethodNotFoundError (method : String) : Error :=
  NewError (-32601) "Method not found" (.str method)

/-- NewInvalidParamsError: code -32602. -/
def NewInvalidParamsError (data : Json) : Error := NewError (-32602) "Invalid params" data

/-- NewInternalError: code -32603. -/
def NewInternalError (data : Json) : Error := NewError (-32603) "Internal error" data

/-- The Request record.  Params is a json.RawMessage (nil or the bytes
of a JSON value, hence Option Json); ID is an interface holding the
decoded JSON value (nil = Json.null). -/
structure Request where
  jsonrpc : String
  method : String
  params : Option Json
  id : Json

/-- The Response record.  Result is a json.RawMessage, Error a
possibly-nil pointer, ID an interface value. -/
structure Response where
  jsonrpc : String
  result : Option Json
  error : Option Error
  id : Json

/-- A byte slice as seen by the codec: empty, invalid JSON (with the
parser error message), or valid JSON parsing to a value. -/
inductive RawData where
  | empty
  | invalid (errMsg : String)
  | valid (j : Json)

/-- Go json.Unmarshal of a JSON value into a string-typed struct
field: absent and null leave the zero value, a JSON string is taken,
anything else is a type error. -/
def unmarshalStringField : Option Json → Option String
  | none => some ""
  | some .null => some ""
  | some (.str s) => some s
  | some _ => none

/-- Go json.Unmarshal into an int-typed struct field: absent and null
leave zero, an (integral) JSON number is taken, anything else is a
type error. -/
def unmarshalIntField : Option Json → Option Int
  | none => some 0
  | some .null => some 0
  | some (.num n) => some n
  | some _ => none

/-- json.Unmarshal of a JSON value into the Error struct: must be an
object; code and message as above; Data keeps the raw JSON value
(absent or null gives the nil interface, i.e. Json.null). -/
def unmarshalError (j : Json) : Option Error :=
  match j with
  | .obj fields => do
    let code ← unmarshalIntField (jGet fields "code")
    let message ← unmarshalStringField (jGet fields "message")
    pure { code := code, message := message, data := (jGet fields "data").getD .null }
  | _ => none

/-- json.Unmarshal into the possibly-nil pointer field Error of a
Response: absent or null gives a nil pointer; an object is decoded;
anything else is a type error. -/
def unmarshalErrorField : Option Json → Option (Option Error)
  | none => some none
  | some .null => some none
  | some j => (unmarshalError j).map some

/-- json.Unmarshal of a JSON value into a (Reset) Request record.
Params is a RawMessage and keeps whatever JSON value the field held;
the id interface keeps the decoded value (absent or null = null). -/
def unmarshalRequest (j : Json) : Option Request :=
  match j with
  | .obj fields => do
    let jsonrpc ← unmarshalStringField (jGet fields "jsonrpc")
    let method ← unmarshalStringField (jGet fields "method")
    pure { jsonrpc := jsonrpc, method := method,
           params := jGet fields "params",
           id := (jGet fields "id").getD .null }
  | _ => none

/-- json.Unmarshal of a JSON value into a (Reset) Response record. -/
def unmarshalResponse (j : Json) : Option Response :=
  match j with
  | .obj fields => do
    let jsonrpc ← unmarshalStringField (jGet fields "jsonrpc")
    let error ← unmarshalErrorField (jGet fields "error")
    pure { jsonrpc := jsonrpc,
           result := jGet fields "result",
           error := error,
           id := (jGet fields "id").getD .null }
  | _ => none

/-- The error message Go produces when valid JSON does not unmarshal
into the target struct (an UnmarshalTypeError); its exact text is
environmental and abstracted by this constant. -/
def unmarshalTypeErrMsg : String := "json: cannot unmarshal value into Go value"

/-- json.Marshal of the Error struct: code, message, and data with
omitempty (a nil interface, i.e. null, is omitted). -/
def Error.toJson (e : Error) : Json :=
  .obj ([("code", .num e.code), ("message", .str e.message)] ++
        (if e.data.isNull then [] else [("data", e.data)]))

/-- json.Marshal of a Request: jsonrpc, method, params with omitempty
(nil RawMessage omitted), id always present. -/
def Request.toJson (req : Request) : Json :=
  .obj ([("jsonrpc", .str req.jsonrpc), ("method", .str req.method)] ++
        (match req.params with
         | none => []
         | some p => [("params", p)]) ++
        [("id", req.id)])

/-- json.Marshal of a Response: jsonrpc, result and error with
omitempty, id always present. -/
def Response.toJson (resp : Response) : Json :=
  .obj ([("jsonrpc", .str resp.jsonrpc)] ++
        (match resp.result with
         | none => []
         | some r => [("result", r)]) ++
        (match resp.error with
         | none => []
         | some e => [("error", e.toJson)]) ++
        [("id", resp.id)])

/-- JSONCodec.EncodeRequest.  The nil-request branch is outside the
value embedding; serialization of the resulting record cannot fail on
this domain (params holds valid JSON), so the function returns the
JSON value of the encoded bytes.  The version tag is set to 2.0 when
empty, after the method check. -/
def EncodeRequest (req : Request) : Except Error Json :=
  if req.method = "" then
    .error (NewInvalidRequestError (.str "method is required"))
  else
    .ok (Request.toJson
      { req with jsonrpc := if req.jsonrpc = "" then JSONRPCVersion else req.jsonrpc })

/-- JSONCodec.DecodeRequest: empty data is InvalidRequest; a JSON
parse or unmarshal failure is a Parse error; then the version tag
must equal 2.0 and the method must be non-empty. -/
def DecodeRequest (data : RawData) : Except Error Request :=
  match data with
  | .empty => .error (NewInvalidRequestError (.str "empty request data"))
  | .invalid msg => .error (NewParseError (.str msg))
  | .valid j =>
    match unmarshalRequest j with
    | none => .error (NewParseError (.str unmarshalTypeErrMsg))
    | some req =>
      if req.jsonrpc ≠ JSONRPCVersion then
        .error (NewInvalidRequestError (.str ("invalid jsonrpc version: " ++ req.jsonrpc)))
      else if req.method = "" then
        .error (NewInvalidRequestError (.str "method is required"))
      else
        .ok req

/-- JSONCodec.EncodeResponse: sets the version tag when empty, then
requires that not neither and not both of result and error are
populated; on this domain serialization then succeeds. -/
def EncodeResponse (resp : Response) : Except Error Json :=
  let r := { resp with jsonrpc := if resp.jsonrpc = "" then JSONRPCVersion else resp.jsonrpc }
  match r.result, r.error with
  | none, none => .error (NewInternalError (.str "response must have either result or error"))
  | some _, some _ => .error (NewInternalError (.str "response cannot have both result and error"))
  | _, _ => .ok r.toJson

/-- JSONCodec.DecodeResponse: empty data is InvalidRequest; parse or
unmarshal failure is a Parse error; the version tag must equal 2.0;
then the response must have result or error (the code rejects only
the neither case). -/
def DecodeResponse (data : RawData) : Except Error Response :=
  match data with
  | .empty => .error (NewInvalidRequestError (.str "empty response data"))
  | .invalid msg => .error (NewParseError (.str msg))
  | .valid j =>
    match unmarshalResponse j with
    | none => .error (NewParseError (.str unmarshalTypeErrMsg))
    | some resp =>
      if resp.jsonrpc ≠ JSONRPCVersion then
        .error (NewInvalidRequestError (.str ("invalid jsonrpc version: " ++ resp.jsonrpc)))
      else
        match resp.result, resp.error with
        | none, none =>
          .error (NewInvalidRequestError (.str "response must have either result or error"))
        | _, _ => .ok resp

/-
  Connection pool (ConnPool).  The pool is modelled as a sequential
  state machine: the leased field is a specification ghost counter of
  connections handed out by Get and not yet returned by Put; idle is
  the length of the idleConns channel (capacity maxIdle); active is
  the int32 activeNum counter.  Health-check and dial outcomes are
  environmental and supplied as inputs of each Get: unhealthy is the
  number of idle connections that will fail the health probe before a
  healthy one (or the empty queue) is reached, dialOk the outcome of
  the dial in the slow path.
-/

/-- Errors of the connection pool (ErrPoolClosed, ErrPoolExhausted,
or any other error such as a dial failure). -/
inductive PoolErr where
  | poolClosed
  | poolExhausted
  | other (msg : String)
deriving DecidableEq

/-- The state of a ConnPool (configuration plus counters). -/
structure PoolState where
  maxIdle : Nat
  maxActive : Int
  testOnGet : Bool
  idle : Nat
  active : Int
  leased : Nat
  closed : Bool
deriving DecidableEq

/-- NewConnPool: MaxIdle defaults to 10 when non-positive, negative
MaxActive is coerced to 0 (unbounded); counters start at zero. -/
def PoolState.init (maxIdle maxActive : Int) (testOnGet : Bool) : PoolState :=
  { maxIdle := if maxIdle ≤ 0 then 10 else maxIdle.toNat,
    maxActive := if maxActive < 0 then 0 else maxActive,
    testOnGet := testOnGet,
    idle := 0, active := 0, leased := 0, closed := false }

/-- ConnPool.Get.  Fast path: take an idle connection; with TestOnGet
set, a failed health probe closes the connection, decrements the
active count, and recurses.  Slow path: when maxActive is positive
and reached, ErrPoolExhausted; otherwise dial, and on success
increment the active count.  The ghost leased counter records a
successful lease. -/
def PoolState.get (s : PoolState) (unhealthy : Nat) (dialOk : Bool) :
    PoolState × Option PoolErr :=
  if s.closed then (s, some .poolClosed)
  else
    match s.idle with
    | i + 1 =>
      if s.testOnGet then
        match unhealthy with
        | u + 1 => PoolState.get { s with idle := i, active := s.active - 1 } u dialOk
        | 0 => ({ s with idle := i, leased := s.leased + 1 }, none)
      else ({ s with idle := i, leased := s.leased + 1 }, none)
    | 0 =>
      if 0 < s.maxActive ∧ s.maxActive ≤ s.active then (s, some .poolExhausted)
      else if dialOk then
        ({ s with active := s.active + 1, leased := s.leased + 1 }, none)
      else (s, some (.other "dial failed"))

/-- ConnPool.Put of a (non-nil) connection previously leased by Get:
when closed, the connection is destroyed and the active count
decremented (returning ErrPoolClosed); otherwise the non-blocking
channel send succeeds exactly when the idle queue is below capacity,
else the connection is destroyed and the active count decremented. -/
def PoolState.put (s : PoolState) : PoolState × Option PoolErr :=
  if s.closed then
    ({ s with active := s.active - 1, leased := s.leased - 1 }, some .poolClosed)
  else if s.idle < s.maxIdle then
    ({ s with idle := s.idle + 1, leased := s.leased - 1 }, none)
  else
    ({ s with active := s.active - 1, leased := s.leased - 1 }, none)

/-- ConnPool.Close: idempotent; drains the idle queue, closing each
idle connection and decrementing the active count. -/
def PoolState.close (s : PoolState) : PoolState :=
  if s.closed then s
  else { s with closed := true, idle := 0, active := s.active - s.idle }

/-- One pool operation of a client of the pool.  A put is only
meaningful while the caller holds a leased connection; with none
leased there is no connection to return and the operation is a
no-op. -/
inductive PoolOp where
  | get (unhealthy : Nat) (dialOk : Bool)
  | put
  | close
deriving DecidableEq

/-- Apply one pool operation to the state. -/
def PoolState.step (s : PoolState) : PoolOp → PoolState
  | .get unhealthy dialOk => (s.get unhealthy dialOk).1
  | .put => if s.leased = 0 then s else s.put.1
  | .close => s.close

/-- Run a sequence of pool operations from a state. -/
def PoolState.run (s : PoolState) : List PoolOp → PoolState
  | [] => s
  | op :: ops => (s.step op).run ops

/-- The pool counter invariant: the active count equals the leased
connections plus the idle connections (every connection counted by
activeNum is either held by a caller or sitting in the idle queue),
the idle queue is within its capacity and empty once the pool is
closed, and a positive maxActive bounds the active count. -/
def PoolInv (s : PoolState) : Prop :=
  s.active = (s.leased : Int) + (s.idle : Int) ∧
  s.idle ≤ s.maxIdle ∧
  (s.closed = true → s.idle = 0) ∧
  (0 < s.maxActive → s.active ≤ s.maxActive)

/-
  ConnPool.GetWithRetry.  The loop around p.Get() is modelled with
  the outcomes of the successive Get calls supplied as a function of
  the attempt index (none = success).  Durations are natural numbers;
  the trace records the number of Get attempts made and the sequence
  of sleeps performed between them.
-/

/-- The observable trace of one GetWithRetry execution. -/
structure RetryTrace where
  attempts : Nat
  sleeps : List Nat
  result : Option PoolErr
deriving DecidableEq

/-- The loop body of GetWithRetry: attempt index i, with remaining
further iterations allowed.  On success stop; ErrPoolClosed and
ErrPoolExhausted are returned immediately without sleeping; any other
error sleeps retryDelay * 2 ^ i and retries while iterations remain,
and the error of the last attempt is returned otherwise. -/
def getWithRetryGo (getOutcome : Nat → Option PoolErr) (retryDelay i : Nat) :
    Nat → RetryTrace
  | 0 =>
    match getOutcome i with
    | none => ⟨1, [], none⟩
    | some e => ⟨1, [], some e⟩
  | remaining + 1 =>
    match getOutcome i with
    | none => ⟨1, [], none⟩
    | some e =>
      if e = .poolClosed ∨ e = .poolExhausted then ⟨1, [], some e⟩
      else
        let t := getWithRetryGo getOutcome retryDelay (i + 1) remaining
        ⟨t.attempts + 1, retryDelay * 2 ^ i :: t.sleeps, t.result⟩

/-- ConnPool.GetWithRetry(maxRetries, retryDelay): the loop runs the
attempt index from 0 to maxRetries inclusive. -/
def GetWithRetry (getOutcome : Nat → Option PoolErr) (maxRetries retryDelay : Nat) :
    RetryTrace :=
  getWithRetryGo getOutcome retryDelay 0 maxRetries

/-
  Client retry classifier.  Go error values reaching shouldRetry are
  modelled by GoError: the sentinel errors the code tests with
  errors.Is, values whose dynamic type implements net.Error (netError,
  and netWrap for a net.Error that wraps another error, as
  net.OpError does), wrappers produced by fmt.Errorf with %w, and any
  other error.
-/

/-- A Go error value, as far as shouldRetry can observe it. -/
inductive GoError where
  | clientClosed
  | canceled
  | deadlineExceeded
  | poolClosed
  | poolExhausted
  | noConnection
  | eof
  | netError (msg : String)
  | netWrap (inner : GoError)
  | wrap (inner : GoError)
  | other (msg : String)
deriving DecidableEq

/-- errors.Is: equality with the target sentinel anywhere along the
unwrap chain. -/
def errorsIs (e t : GoError) : Bool :=
  if e = t then true
  else
    match e with
    | .wrap inner => errorsIs inner t
    | .netWrap inner => errorsIs inner t
    | _ => false

/-- errors.As with a net.Error target: some error in the unwrap chain
implements net.Error. -/
def errorsAsNet : GoError → Bool
  | .netError _ => true
  | .netWrap _ => true
  | .wrap inner => errorsAsNet inner
  | _ => false

/-- Client.shouldRetry, following the order of the checks in the
source: nil, ErrClientClosed, context.Canceled or DeadlineExceeded
and ErrPoolExhausted are not retried; then a net.Error is retried;
then ErrNoConnection and io.EOF are retried; everything else is
not. -/
def shouldRetry : Option GoError → Bool
  | none => false
  | some e =>
    if errorsIs e .clientClosed then false
    else if errorsIs e .canceled || errorsIs e .deadlineExceeded then false
    else if errorsIs e .poolExhausted then false
    else if errorsAsNet e then true
    else if errorsIs e .noConnection || errorsIs e .eof then true
    else false

/-
  ServiceRegistry.  A registered method is reduced to its observable
  behaviour: unmarshalArg models json.Unmarshal of the raw parameter
  bytes into a fresh record of the cached argument type (none =
  success, some msg = the unmarshal error message), and handle models
  invoking the cached callable on the parsed argument record (none =
  the zero-valued record used when the unmarshal step was skipped),
  yielding a panic, a returned error, or a populated reply record
  (its JSON value).  The captured stack of debug.Stack() is
  environmental and passed as a parameter.
-/

/-- What a handler invocation does: panic, return an error, or fill
the reply record. -/
inductive HandlerOutcome where
  | panics (msg : String)
  | fails (msg : String)
  | succeeds (reply : Json)

/-- The cached descriptor of one registered method. -/
structure MethodType where
  unmarshalArg : Json → Option String
  handle : Option Json → HandlerOutcome

/-- The registry: service name to method name to descriptor. -/
structure ServiceRegistry where
  services : List (String × List (String × MethodType))

/-- The conversion of a handler invocation outcome performed by
ServiceRegistry.call: a recovered panic becomes Internal with the
panic value and stack; a returned error becomes Internal with its
message; success yields the reply record. -/
def runHandler (outcome : HandlerOutcome) (stack : String) : Except Error Json :=
  match outcome with
  | .panics msg =>
    .error (NewInternalError (.str ("panic: " ++ msg ++ "\nstack: " ++ stack)))
  | .fails msg => .error (NewInternalError (.str msg))
  | .succeeds reply => .ok reply

/-- ServiceRegistry.call (the body guarded by the panic recovery):
a non-empty raw payload is unmarshalled into the argument record
(InvalidParams on failure; a payload that is not valid JSON fails
with the JSON parse error message), an empty payload skips the unmarshal
step, and the handler is invoked. -/
def ServiceRegistry.callMethod (m : MethodType) (stack : String) (args : RawData) :
    Except Error Json :=
  match args with
  | .empty => runHandler (m.handle none) stack
  | .invalid msg =>
    .error (NewInvalidParamsError (.str ("failed to unmarshal args: " ++ msg)))
  | .valid j =>
    match m.unmarshalArg j with
    | some msg =>
      .error (NewInvalidParamsError (.str ("failed to unmarshal args: " ++ msg)))
    | none => runHandler (m.handle (some j)) stack

/-- ServiceRegistry.Call: look up the service and the method (each
miss is MethodNotFound with the documented data), then dispatch. -/
def ServiceRegistry.Call (r : ServiceRegistry) (stack : String)
    (serviceName methodName : String) (args : RawData) : Except Error Json :=
  match r.services.lookup serviceName with
  | none =>
    .error (NewMethodNotFoundError ("service " ++ serviceName ++ " not found"))
  | some methods =>
    match methods.lookup methodName with
    | none => .error (NewMethodNotFoundError (serviceName ++ "." ++ methodName))
    | some m => ServiceRegistry.callMethod m stack args

/-
  Server request processing.
-/

/-- The byte index of the first dot of a string (over its characters;
the dot is ASCII, so character and byte positions of the first dot
and of the string end agree on valid UTF-8). -/
def findDotIdx : List Char → Option Nat
  | [] => none
  | c :: rest =>
    if c = '.' then some 0
    else (findDotIdx rest).map (· + 1)

/-- parseMethod: split ServiceName.MethodName at the first dot; no
dot, a leading dot, or a trailing dot is an error. -/
def parseMethod (method : String) : Option (String × String) :=
  match findDotIdx method.toList with
  | none => none
  | some i =>
    if i = 0 ∨ i = method.toList.length - 1 then none
    else some (⟨method.toList.take i⟩, ⟨method.toList.drop (i + 1)⟩)

/-- The raw parameter payload a decoded request hands to the
registry: a nil RawMessage is an empty payload, otherwise the bytes
of the held JSON value. -/
def paramsRaw : Option Json → RawData
  | none => .empty
  | some p => .valid p

/-- Server.encodeErrorResponse builds this response and encodes it
(the encoding of an error response always succeeds on this domain:
error is set and result is nil). -/
def errorResponse (id : Json) (rpcErr : Error) : Response :=
  { jsonrpc := JSONRPCVersion, result := none, error := some rpcErr, id := id }

/-- Server.encodeSuccessResponse builds this response from the
marshalled reply record and encodes it. -/
def successResponse (id : Json) (result : Json) : Response :=
  { jsonrpc := JSONRPCVersion, result := some result, error := none, id := id }

/-- Server.processRequest: decode (errors answered with a null id),
split the method (malformed names answered with MethodNotFound and
the request id), dispatch through the registry (errors answered with
the request id), and wrap a successful result.  The function yields
the Response the server encodes and writes. -/
def processRequest (reg : ServiceRegistry) (stack : String) (data : RawData) :
    Response :=
  match DecodeRequest data with
  | .error e => errorResponse .null e
  | .ok req =>
    match parseMethod req.method with
    | none => errorResponse req.id (NewMethodNotFoundError req.method)
    | some (serviceName, methodName) =>
      match ServiceRegistry.Call reg stack serviceName methodName (paramsRaw req.params) with
      | .error e => errorResponse req.id e
      | .ok result => successResponse req.id result

/-
  Client response handling.
-/

/-- The Go conversion uint64(x) of the float64 response identifier
(an integer in this model); the conversion of a negative value is
implementation-defined in Go and modelled as 0, which no sequence
number check relies on. -/
def goUInt64 (n : Int) : Nat :=
  if 0 ≤ n then n.toNat % 2 ^ 64 else 0

/-- The outcome of Client.receiveResponse after reading one line. -/
inductive RecvResult where
  | decodeFailed (e : Error)
  | invalidIDType
  | idMismatch (expected got : Nat)
  | rpcError (e : Error)
  | success (result : Option Json)

/-- Client.receiveResponse on the line read from the connection, for
a call with sequence number seq: decode; the id must be a JSON
number (the float64 type assertion fails on every other identifier);
its uint64 value must equal seq; then an error response is stored on
the call and a result payload is returned for unmarshalling into the
reply. -/
def receiveResponse (data : RawData) (seq : Nat) : RecvResult :=
  match DecodeResponse data with
  | .error e => .decodeFailed e
  | .ok resp =>
    match resp.id with
    | .num n =>
      if goUInt64 n ≠ seq then .idMismatch seq (goUInt64 n)
      else
        match resp.error with
        | some e => .rpcError e
        | none => .success resp.result
    | _ => .invalidIDType

/-
  Theorems.
-/

/-- C1 (amended): every byte sequence DecodeResponse accepts yields a
Response with at least one of result and error populated - the code
rejects the neither case but accepts both being populated. -/
theorem C1_decodeResponse_at_least_one (data : RawData) (resp : Response)
    (h : DecodeResponse data = .ok resp) :
    resp.result ≠ none ∨ resp.error ≠ none := by
  cases data with
  | empty => simp [DecodeResponse] at h
  | invalid msg => simp [DecodeResponse] at h
  | valid j =>
    rcases hm : unmarshalResponse j with _ | r
    · simp [DecodeResponse, hm] at h
    · by_cases hv : r.jsonrpc = JSONRPCVersion
      · rcases hres : r.result with _ | v
        · rcases herr : r.error with _ | e
          · simp [DecodeResponse, hm, hv, hres, herr] at h
          · simp [DecodeResponse, hm, hv, hres, herr] at h
            subst h
            exact Or.inr (by simp [herr])
        · simp [DecodeResponse, hm, hv, hres] at h
          subst h
          exact Or.inl (by simp [hres])
      · simp [DecodeResponse, hm, hv] at h

/-- C1 witness: a concrete accepted response (result only). -/
theorem C1_witness :
    (DecodeResponse (.valid (.obj [("jsonrpc", .str "2.0"), ("result", .num 3), ("id", .num 1)])) =
      .ok { jsonrpc := "2.0", result := some (.num 3), error := none, id := .num 1 }) ∧
    (({ jsonrpc := "2.0", result := some (.num 3), error := none, id := .num 1 } : Response).result ≠ none ∨
     ({ jsonrpc := "2.0", result := some (.num 3), error := none, id := .num 1 } : Response).error ≠ none) :=
  ⟨rfl,
   C1_decodeResponse_at_least_one
     (.valid (.obj [("jsonrpc", .str "2.0"), ("result", .num 3), ("id", .num 1)]))
     { jsonrpc := "2.0", result := some (.num 3), error := none, id := .num 1 } rfl⟩

/-- C1 counterexample: DecodeResponse accepts a response carrying both
a result and an error, so exactly-one-of does not hold for every
accepted response. -/
theorem C1_counterexample :
    DecodeResponse (.valid (.obj [("jsonrpc", .str "2.0"), ("result", .num 1),
        ("error", .obj [("code", .num 1), ("message", .str "boom")]), ("id", .num 1)])) =
      .ok { jsonrpc := "2.0", result := some (.num 1),
            error := some { code := 1, message := "boom", data := .null }, id := .num 1 } ∧
    (some (Json.num 1) ≠ (none : Option Json) ∧
     some { code := 1, message := "boom", data := Json.null } ≠ (none : Option Error)) :=
  ⟨rfl, by simp, by simp⟩

/-- C5 (amended): classification of DecodeRequest - empty input fails
with InvalidRequest (not Parse); a non-empty input that is not valid
JSON, or valid JSON that does not unmarshal into a Request object,
fails with Parse; then a version tag other than 2.0 or an empty
method fails with InvalidRequest; otherwise the populated Request is
returned with its parameter payload kept raw. -/
theorem C5_decodeRequest_classification (msg : String) (j : Json) :
    DecodeRequest .empty =
      .error { code := -32600, message := "Invalid Request", data := .str "empty request data" } ∧
    DecodeRequest (.invalid msg) =
      .error { code := -32700, message := "Parse error", data := .str msg } ∧
    (unmarshalRequest j = none →
      DecodeRequest (.valid j) =
        .error { code := -32700, message := "Parse error", data := .str unmarshalTypeErrMsg }) ∧
    (∀ req, unmarshalRequest j = some req →
      (req.jsonrpc ≠ "2.0" →
        DecodeRequest (.valid j) =
          .error { code := -32600, message := "Invalid Request",
                   data := .str ("invalid jsonrpc version: " ++ req.jsonrpc) }) ∧
      (req.jsonrpc = "2.0" → req.method = "" →
        DecodeRequest (.valid j) =
          .error { code := -32600, message := "Invalid Request", data := .str "method is required" }) ∧
      (req.jsonrpc = "2.0" → req.method ≠ "" → DecodeRequest (.valid j) = .ok req)) := by
  refine ⟨rfl, rfl, ?_, ?_⟩
  · intro h
    simp [DecodeRequest, h, NewParseError, NewError]
  · intro req h
    refine ⟨?_, ?_, ?_⟩
    · intro hv
      simp [DecodeRequest, h, JSONRPCVersion, hv, NewInvalidRequestError, NewError]
    · intro hv hm
      simp [DecodeRequest, h, JSONRPCVersion, hv, hm, NewInvalidRequestError, NewError]
    · intro hv hm
      simp [DecodeRequest, h, JSONRPCVersion, hv, hm]

/-- C5 witness: a concrete well-formed request decodes successfully
through the classification theorem. -/
theorem C5_witness :
    DecodeRequest (.valid (.obj [("jsonrpc", .str "2.0"), ("method", .str "A.B"), ("id", .num 1)])) =
      .ok { jsonrpc := "2.0", method := "A.B", params := none, id := .num 1 } :=
  (((C5_decodeRequest_classification "x"
      (.obj [("jsonrpc", .str "2.0"), ("method", .str "A.B"), ("id", .num 1)])).2.2.2
      { jsonrpc := "2.0", method := "A.B", params := none, id := .num 1 } rfl).2.2)
    rfl (by decide)

/-- C5 counterexample: the empty byte sequence is not valid JSON, yet
DecodeRequest fails with InvalidRequest (-32600), not Parse (-32700),
so Parse does not occur exactly when the input is not valid JSON. -/
theorem C5_counterexample :
    DecodeRequest .empty =
      .error { code := -32600, message := "Invalid Request", data := .str "empty request data" } ∧
    (-32600 : Int) ≠ -32700 :=
  ⟨rfl, by decide⟩

/-- Unmarshalling the marshalled form of an Error record recovers the
record (the data field is omitted exactly when it is the nil
interface, which decodes back to it). -/
theorem unmarshalError_toJson (e : Error) :
    unmarshalError (Error.toJson e) = some e := by
  rcases e with ⟨c, m, d⟩
  cases d <;> rfl

/-- Unmarshalling the marshalled form of a Request recovers it. -/
theorem unmarshalRequest_toJson (r : Request) :
    unmarshalRequest (Request.toJson r) = some r := by
  rcases r with ⟨v, m, p, i⟩
  cases p <;> rfl

/-- Unmarshalling the marshalled form of a Response recovers it. -/
theorem unmarshalResponse_toJson (s : Response) :
    unmarshalResponse (Response.toJson s) = some s := by
  rcases s with ⟨v, res, err, i⟩
  rcases err with _ | ⟨c, m, d⟩
  · cases res <;> rfl
  · cases res <;> cases d <;> rfl

/-- C3 (amended): decode after encode is the identity, on requests
with a non-empty method whose version tag is empty or already 2.0
(an empty tag comes back as 2.0; any other tag survives encoding but
is then rejected by the decoder), and on responses with version tag
2.0 and exactly one of result and error populated. -/
theorem C3_codec_roundtrip (r : Request) (s : Response) (j k : Json) :
    (r.method ≠ "" → r.jsonrpc = "" ∨ r.jsonrpc = "2.0" →
      EncodeRequest r = .ok j →
      DecodeRequest (.valid j) = .ok { r with jsonrpc := "2.0" }) ∧
    (s.jsonrpc = "2.0" → (s.result = none ↔ s.error ≠ none) →
      EncodeResponse s = .ok k →
      DecodeResponse (.valid k) = .ok s) := by
  constructor
  · intro hm hv henc
    have hrv : (if r.jsonrpc = "" then JSONRPCVersion else r.jsonrpc) = "2.0" := by
      rcases hv with hv | hv <;> simp [hv, JSONRPCVersion]
    unfold EncodeRequest at henc
    rw [if_neg hm, hrv] at henc
    injection henc with hj
    subst hj
    simp [DecodeRequest, unmarshalRequest_toJson, JSONRPCVersion, hm]
  · rcases s with ⟨sv, sres, serr, sid⟩
    intro hv hx henc
    simp only at hv
    subst hv
    rcases sres with _ | rv <;> rcases serr with _ | e
    · simp at hx
    · simp only [EncodeResponse, JSONRPCVersion] at henc
      simp at henc
      subst henc
      simp [DecodeResponse, unmarshalResponse_toJson, JSONRPCVersion]
    · simp only [EncodeResponse, JSONRPCVersion] at henc
      simp at henc
      subst henc
      simp [DecodeResponse, unmarshalResponse_toJson, JSONRPCVersion]
    · simp at hx

/-- C3 witness: concrete request and response round trips. -/
theorem C3_witness :
    DecodeRequest (.valid (Request.toJson
        { jsonrpc := "2.0", method := "A.B", params := none, id := .num 7 })) =
      .ok { jsonrpc := "2.0", method := "A.B", params := none, id := .num 7 } ∧
    DecodeResponse (.valid (Response.toJson
        { jsonrpc := "2.0", result := some (.num 3), error := none, id := .num 7 })) =
      .ok { jsonrpc := "2.0", result := some (.num 3), error := none, id := .num 7 } :=
  ⟨(C3_codec_roundtrip { jsonrpc := "", method := "A.B", params := none, id := .num 7 }
      { jsonrpc := "2.0", result := some (.num 3), error := none, id := .num 7 }
      (Request.toJson { jsonrpc := "2.0", method := "A.B", params := none, id := .num 7 })
      (Response.toJson { jsonrpc := "2.0", result := some (.num 3), error := none, id := .num 7 })).1
      (by decide) (Or.inl rfl) rfl,
   (C3_codec_roundtrip { jsonrpc := "", method := "A.B", params := none, id := .num 7 }
      { jsonrpc := "2.0", result := some (.num 3), error := none, id := .num 7 }
      (Request.toJson { jsonrpc := "2.0", method := "A.B", params := none, id := .num 7 })
      (Response.toJson { jsonrpc := "2.0", result := some (.num 3), error := none, id := .num 7 })).2
      rfl (by simp) rfl⟩

/-- Get preserves the pool counter invariant. -/
theorem poolInv_get (u : Nat) :
    ∀ (s : PoolState) (d : Bool), PoolInv s → PoolInv (s.get u d).1 := by
  induction u with
  | zero =>
    intro s d h
    obtain ⟨h1, h2, h3, h4⟩ := h
    unfold PoolState.get
    split
    · exact ⟨h1, h2, h3, h4⟩
    · rename_i hcl
      split
      · rename_i i hidle
        split
        · refine ⟨?_, ?_, ?_, ?_⟩ <;> simp_all <;> omega
        · refine ⟨?_, ?_, ?_, ?_⟩ <;> simp_all <;> omega
      · rename_i hidle
        split
        · exact ⟨h1, h2, h3, h4⟩
        · rename_i hcap
          split
          · refine ⟨?_, ?_, ?_, ?_⟩ <;> simp_all <;> omega
          · exact ⟨h1, h2, h3, h4⟩
  | succ u ih =>
    intro s d h
    obtain ⟨h1, h2, h3, h4⟩ := h
    unfold PoolState.get
    split
    · exact ⟨h1, h2, h3, h4⟩
    · rename_i hcl
      split
      · rename_i i hidle
        split
        · apply ih
          refine ⟨?_, ?_, ?_, ?_⟩ <;> simp_all <;> omega
        · refine ⟨?_, ?_, ?_, ?_⟩ <;> simp_all <;> omega
      · rename_i hidle
        split
        · exact ⟨h1, h2, h3, h4⟩
        · rename_i hcap
          split
          · refine ⟨?_, ?_, ?_, ?_⟩ <;> simp_all <;> omega
          · exact ⟨h1, h2, h3, h4⟩

/-- Put of a held connection preserves the pool counter invariant. -/
theorem poolInv_put (s : PoolState) (hl : s.leased ≠ 0) (h : PoolInv s) :
    PoolInv s.put.1 := by
  obtain ⟨h1, h2, h3, h4⟩ := h
  unfold PoolState.put
  split
  · refine ⟨?_, ?_, ?_, ?_⟩ <;> simp_all <;> omega
  · split
    · refine ⟨?_, ?_, ?_, ?_⟩ <;> simp_all <;> omega
    · refine ⟨?_, ?_, ?_, ?_⟩ <;> simp_all <;> omega

/-- Close preserves the pool counter invariant. -/
theorem poolInv_close (s : PoolState) (h : PoolInv s) : PoolInv s.close := by
  obtain ⟨h1, h2, h3, h4⟩ := h
  unfold PoolState.close
  split
  · exact ⟨h1, h2, h3, h4⟩
  · refine ⟨?_, ?_, ?_, ?_⟩ <;> simp_all <;> omega

/-- Every pool operation preserves the pool counter invariant. -/
theorem poolInv_step (s : PoolState) (op : PoolOp) (h : PoolInv s) :
    PoolInv (s.step op) := by
  cases op with
  | get u d => exact poolInv_get u s d h
  | put =>
    by_cases hl : s.leased = 0
    · simpa [PoolState.step, hl] using h
    · simpa [PoolState.step, hl] using poolInv_put s hl h
  | close => exact poolInv_close s h

/-- The pool counter invariant holds in every reachable state. -/
theorem poolInv_run (ops : List PoolOp) :
    ∀ s : PoolState, PoolInv s → PoolInv (s.run ops) := by
  induction ops with
  | nil => intro s h; exact h
  | cons op ops ih =>
    intro s h
    exact ih _ (poolInv_step s op h)

/-- C2 (amended): in every state reachable from a fresh pool by Get,
Put, and Close operations, the active count equals the leased
connections plus the idle connections (not the leased connections
alone: returning a connection to the idle queue keeps it counted);
it never goes negative, and a positive maxActive is never
exceeded. -/
theorem C2_pool_counters (maxIdle maxActive : Int) (testOnGet : Bool)
    (ops : List PoolOp) :
    ((PoolState.init maxIdle maxActive testOnGet).run ops).active =
      (((PoolState.init maxIdle maxActive testOnGet).run ops).leased : Int) +
      (((PoolState.init maxIdle maxActive testOnGet).run ops).idle : Int) ∧
    0 ≤ ((PoolState.init maxIdle maxActive testOnGet).run ops).active ∧
    (0 < ((PoolState.init maxIdle maxActive testOnGet).run ops).maxActive →
      ((PoolState.init maxIdle maxActive testOnGet).run ops).active ≤
        ((PoolState.init maxIdle maxActive testOnGet).run ops).maxActive) := by
  have hinit : PoolInv (PoolState.init maxIdle maxActive testOnGet) := by
    refine ⟨?_, ?_, ?_, ?_⟩ <;> simp [PoolState.init] <;> omega
  obtain ⟨h1, h2, h3, h4⟩ := poolInv_run ops _ hinit
  exact ⟨h1, by omega, h4⟩

/-- C2 witness: after a single successful lease from a bounded pool,
the counter facts instantiate concretely. -/
theorem C2_witness :
    ((PoolState.init 10 5 false).run [.get 0 true]).active =
      ((((PoolState.init 10 5 false).run [.get 0 true]).leased : Int) +
       (((PoolState.init 10 5 false).run [.get 0 true]).idle : Int)) ∧
    0 ≤ ((PoolState.init 10 5 false).run [.get 0 true]).active ∧
    ((PoolState.init 10 5 false).run [.get 0 true]).active ≤
      ((PoolState.init 10 5 false).run [.get 0 true]).maxActive :=
  ⟨(C2_pool_counters 10 5 false [.get 0 true]).1,
   (C2_pool_counters 10 5 false [.get 0 true]).2.1,
   (C2_pool_counters 10 5 false [.get 0 true]).2.2 (by decide)⟩

/-- C2 counterexample: lease one connection and return it.  No
connection is leased-but-not-returned, yet the active count is 1 (the
idle connection remains counted), so the active count does not equal
the number of leased-but-not-returned connections. -/
theorem C2_counterexample :
    ((PoolState.init 10 5 false).run [.get 0 true, .put]).active = 1 ∧
    ((PoolState.init 10 5 false).run [.get 0 true, .put]).leased = 0 ∧
    ((PoolState.init 10 5 false).run [.get 0 true, .put]).idle = 1 ∧
    (1 : Int) ≠ 0 :=
  ⟨rfl, rfl, rfl, by decide⟩

/-- The retry loop of GetWithRetry, characterized for any start
index: at least one and at most remaining + 1 attempts are made; the
sleeps are exactly retryDelay * 2 ^ (attempt index) between
consecutive attempts; every attempt that was followed by another
failed with an error other than ErrPoolClosed and ErrPoolExhausted;
and the outcome of the final attempt is returned. -/
theorem getWithRetryGo_spec (getOutcome : Nat → Option PoolErr) (delay : Nat) :
    ∀ (remaining i : Nat),
      1 ≤ (getWithRetryGo getOutcome delay i remaining).attempts ∧
      (getWithRetryGo getOutcome delay i remaining).attempts ≤ remaining + 1 ∧
      (getWithRetryGo getOutcome delay i remaining).sleeps =
        (List.range ((getWithRetryGo getOutcome delay i remaining).attempts - 1)).map
          (fun k => delay * 2 ^ (i + k)) ∧
      (∀ k, k + 1 < (getWithRetryGo getOutcome delay i remaining).attempts →
        ∃ m, getOutcome (i + k) = some (.other m)) ∧
      (getWithRetryGo getOutcome delay i remaining).result =
        getOutcome (i + ((getWithRetryGo getOutcome delay i remaining).attempts - 1)) := by
  intro remaining
  induction remaining with
  | zero =>
    intro i
    rcases hg : getOutcome i with _ | e <;>
      simp [getWithRetryGo, hg]
  | succ remaining ih =>
    intro i
    rcases hg : getOutcome i with _ | e
    · simp [getWithRetryGo, hg]
    · by_cases hterm : e = PoolErr.poolClosed ∨ e = PoolErr.poolExhausted
      · simp [getWithRetryGo, hg, hterm]
      · obtain ⟨ih1, ih2, ih3, ih4, ih5⟩ := ih (i + 1)
        rcases hn : (getWithRetryGo getOutcome delay (i + 1) remaining).attempts with _ | n
        · omega
        · rw [hn] at ih2 ih3 ih4 ih5
          refine ⟨?_, ?_, ?_, ?_, ?_⟩
          · simp [getWithRetryGo, hg, hterm]
          · simp [getWithRetryGo, hg, hterm, hn]
            omega
          · simp [getWithRetryGo, hg, hterm, hn, ih3, List.range_succ_eq_map,
                  List.map_map, Function.comp]
            intro a _
            omega
          · intro k hk
            simp [getWithRetryGo, hg, hterm, hn] at hk
            cases k with
            | zero =>
              rcases e with _ | _ | m
              · exact absurd (Or.inl rfl) hterm
              · exact absurd (Or.inr rfl) hterm
              · exact ⟨m, by simpa using hg⟩
            | succ k =>
              obtain ⟨m, hm⟩ := ih4 k (by omega)
              exact ⟨m, by rw [show i + (k + 1) = i + 1 + k by omega]; exact hm⟩
          · simp [getWithRetryGo, hg, hterm, hn]
            rw [show i + (n + 1) = i + 1 + n by omega]
            simpa using ih5

/-- C7 (amended): GetWithRetry(maxRetries, retryDelay) makes between
1 and maxRetries + 1 Get attempts (the loop index runs from 0 to
maxRetries inclusive, so maxRetries is the number of retries, not
attempts); it sleeps retryDelay * 2 ^ k between attempts k and k + 1;
every attempt that was retried failed with an error other than
ErrPoolClosed and ErrPoolExhausted (those are returned immediately,
with no further attempt and no sleep); and the outcome of the last
attempt performed is what is returned. -/
theorem C7_getWithRetry (getOutcome : Nat → Option PoolErr) (maxRetries retryDelay : Nat) :
    1 ≤ (GetWithRetry getOutcome maxRetries retryDelay).attempts ∧
    (GetWithRetry getOutcome maxRetries retryDelay).attempts ≤ maxRetries + 1 ∧
    (GetWithRetry getOutcome maxRetries retryDelay).sleeps =
      (List.range ((GetWithRetry getOutcome maxRetries retryDelay).attempts - 1)).map
        (fun k => retryDelay * 2 ^ k) ∧
    (∀ k, k + 1 < (GetWithRetry getOutcome maxRetries retryDelay).attempts →
      ∃ m, getOutcome k = some (.other m)) ∧
    (GetWithRetry getOutcome maxRetries retryDelay).result =
      getOutcome ((GetWithRetry getOutcome maxRetries retryDelay).attempts - 1) := by
  obtain ⟨h1, h2, h3, h4, h5⟩ := getWithRetryGo_spec getOutcome retryDelay maxRetries 0
  exact ⟨h1, h2, by simpa using h3, fun k hk => by simpa using h4 k hk, by simpa using h5⟩

/-- C7 witness: one failing dial followed by a success makes two
attempts with a single sleep of the base delay. -/
theorem C7_witness :
    (GetWithRetry (fun n => if n = 0 then some (.other "dial failed") else none) 2 3).sleeps =
      (List.range
        ((GetWithRetry (fun n => if n = 0 then some (.other "dial failed") else none) 2 3).attempts - 1)).map
        (fun k => 3 * 2 ^ k) ∧
    (∃ m, (fun n => if n = 0 then some (PoolErr.other "dial failed") else none) 0 =
      some (.other m)) :=
  ⟨(C7_getWithRetry (fun n => if n = 0 then some (.other "dial failed") else none) 2 3).2.2.1,
   (C7_getWithRetry (fun n => if n = 0 then some (.other "dial failed") else none) 2 3).2.2.2.1
     0 (by decide)⟩

/-- C7 counterexample: with maxRetries = 1 and a persistently failing
dial, GetWithRetry performs 2 Get attempts, so it does not make at
most N attempts for N = 1. -/
theorem C7_counterexample :
    (GetWithRetry (fun _ => some (.other "dial failed")) 1 5).attempts = 2 ∧ ¬(2 ≤ 1) :=
  ⟨rfl, by decide⟩

/-- C8 (amended): shouldRetry is the decision table of the source,
with the non-retry checks taking precedence: an error is retried
exactly when its unwrap chain matches none of ErrClientClosed,
context.Canceled, context.DeadlineExceeded, and ErrPoolExhausted,
and it is a net.Error or matches ErrNoConnection or io.EOF; nil is
not retried.  In particular a net.Error wrapping a context
cancellation is not retried. -/
theorem C8_shouldRetry_table (e : GoError) :
    shouldRetry none = false ∧
    shouldRetry (some e) =
      (!(errorsIs e .clientClosed || errorsIs e .canceled || errorsIs e .deadlineExceeded ||
         errorsIs e .poolExhausted) &&
       (errorsAsNet e || errorsIs e .noConnection || errorsIs e .eof)) := by
  refine ⟨rfl, ?_⟩
  simp only [shouldRetry]
  cases h1 : errorsIs e .clientClosed <;>
  cases h2 : errorsIs e .canceled <;>
  cases h3 : errorsIs e .deadlineExceeded <;>
  cases h4 : errorsIs e .poolExhausted <;>
  cases h5 : errorsAsNet e <;>
  cases h6 : errorsIs e .noConnection <;>
  cases h7 : errorsIs e .eof <;>
  simp [h1, h2, h3, h4, h5, h6, h7]

/-- C8 counterexample: a net.Error whose unwrap chain reaches
context.Canceled (as a dial aborted by context cancellation yields)
is a network error, yet shouldRetry classifies it as not
retryable. -/
theorem C8_counterexample :
    errorsAsNet (.netWrap .canceled) = true ∧
    shouldRetry (some (.netWrap .canceled)) = false :=
  ⟨rfl, by decide⟩

/-- C4: classification of ServiceRegistry.Call - unknown service or
method is MethodNotFound (-32601); a non-empty parameter payload
that fails to unmarshal into the cached argument type is
InvalidParams (-32602); a recovered handler panic is Internal
(-32603) carrying the panic value and stack; a handler error is
Internal wrapping its message; success returns the reply record. -/
theorem C4_registry_call_classification (reg : ServiceRegistry) (stack svc mth : String)
    (raw : RawData) :
    (reg.services.lookup svc = none →
      ServiceRegistry.Call reg stack svc mth raw =
        .error { code := -32601, message := "Method not found",
                 data := .str ("service " ++ svc ++ " not found") }) ∧
    (∀ ms, reg.services.lookup svc = some ms → ms.lookup mth = none →
      ServiceRegistry.Call reg stack svc mth raw =
        .error { code := -32601, message := "Method not found",
                 data := .str (svc ++ "." ++ mth) }) ∧
    (∀ ms m, reg.services.lookup svc = some ms → ms.lookup mth = some m →
      (∀ emsg, raw = .invalid emsg →
        ServiceRegistry.Call reg stack svc mth raw =
          .error { code := -32602, message := "Invalid params",
                   data := .str ("failed to unmarshal args: " ++ emsg) }) ∧
      (∀ j emsg, raw = .valid j → m.unmarshalArg j = some emsg →
        ServiceRegistry.Call reg stack svc mth raw =
          .error { code := -32602, message := "Invalid params",
                   data := .str ("failed to unmarshal args: " ++ emsg) }) ∧
      (raw = .empty →
        ServiceRegistry.Call reg stack svc mth raw = runHandler (m.handle none) stack) ∧
      (∀ j, raw = .valid j → m.unmarshalArg j = none →
        ServiceRegistry.Call reg stack svc mth raw = runHandler (m.handle (some j)) stack)) ∧
    (∀ p, runHandler (.panics p) stack =
      .error { code := -32603, message := "Internal error",
               data := .str ("panic: " ++ p ++ "\nstack: " ++ stack) }) ∧
    (∀ msg, runHandler (.fails msg) stack =
      .error { code := -32603, message := "Internal error", data := .str msg }) ∧
    (∀ reply, runHandler (.succeeds reply) stack = .ok reply) := by
  refine ⟨?_, ?_, ?_, fun p => rfl, fun msg => rfl, fun reply => rfl⟩
  · intro hs
    simp [ServiceRegistry.Call, hs, NewMethodNotFoundError, NewError]
  · intro ms hs hm
    simp [ServiceRegistry.Call, hs, hm, NewMethodNotFoundError, NewError]
  · intro ms m hs hm
    refine ⟨?_, ?_, ?_, ?_⟩
    · intro emsg hraw
      subst hraw
      simp [ServiceRegistry.Call, hs, hm, ServiceRegistry.callMethod,
            NewInvalidParamsError, NewError]
    · intro j emsg hraw hu
      subst hraw
      simp [ServiceRegistry.Call, hs, hm, ServiceRegistry.callMethod, hu,
            NewInvalidParamsError, NewError]
    · intro hraw
      subst hraw
      simp [ServiceRegistry.Call, hs, hm, ServiceRegistry.callMethod]
    · intro j hraw hu
      subst hraw
      simp [ServiceRegistry.Call, hs, hm, ServiceRegistry.callMethod, hu]

/-- C4 witness: a one-service registry dispatches a parameterless
call to its handler, which succeeds. -/
theorem C4_witness :
    ServiceRegistry.Call
      ⟨[("Svc", [("M", ⟨fun _ => none, fun _ => .succeeds (.num 42)⟩)])]⟩
      "stk" "Svc" "M" .empty =
      runHandler ((⟨fun _ => none, fun _ => .succeeds (.num 42)⟩ : MethodType).handle none) "stk" :=
  ((C4_registry_call_classification
      ⟨[("Svc", [("M", ⟨fun _ => none, fun _ => .succeeds (.num 42)⟩)])]⟩
      "stk" "Svc" "M" .empty).2.2.1
    [("M", ⟨fun _ => none, fun _ => .succeeds (.num 42)⟩)]
    ⟨fun _ => none, fun _ => .succeeds (.num 42)⟩ rfl rfl).2.2.1 rfl

/-- findDotIdx finds no dot exactly when the string has none. -/
theorem findDotIdx_eq_none (cs : List Char) : findDotIdx cs = none ↔ '.' ∉ cs := by
  induction cs with
  | nil => simp [findDotIdx]
  | cons c rest ih =>
    by_cases hc : c = '.'
    · subst hc
      simp [findDotIdx]
    · simp [findDotIdx, hc, ih, Ne.symm hc]

/-- When the string contains a dot, findDotIdx returns the index of
the first one. -/
theorem findDotIdx_eq_indexOf (cs : List Char) (h : '.' ∈ cs) :
    findDotIdx cs = some (cs.indexOf '.') := by
  induction cs with
  | nil => simp at h
  | cons c rest ih =>
    by_cases hc : c = '.'
    · subst hc
      simp [findDotIdx, List.indexOf_cons]
    · have hr : '.' ∈ rest := by
        rcases List.mem_cons.mp h with h | h
        · exact absurd h.symm hc
        · exact h
      have hbeq : (c == '.') = false := by simp [hc]
      simp [findDotIdx, hc, ih hr, List.indexOf_cons, hbeq]

/-- A method name with no dot, a leading dot, or a trailing dot fails
parseMethod. -/
theorem parseMethod_eq_none (m : String)
    (h : ('.' ∉ m.toList) ∨ m.toList.indexOf '.' = 0 ∨
         m.toList.indexOf '.' + 1 = m.toList.length) :
    parseMethod m = none := by
  by_cases hmem : '.' ∈ m.toList
  · have hf : findDotIdx m.data = some (List.indexOf '.' m.data) :=
      findDotIdx_eq_indexOf m.toList hmem
    rcases h with h | h | h
    · exact absurd hmem h
    · have hz : List.indexOf '.' m.data = 0 := h
      simp [parseMethod, hf, hz]
    · have hlen : List.indexOf '.' m.data = m.length - 1 := by
        have h2 : List.indexOf '.' m.data + 1 = m.length := h
        omega
      simp [parseMethod, hf, hlen]
  · have hf : findDotIdx m.data = none := (findDotIdx_eq_none m.toList).mpr hmem
    simp [parseMethod, hf]

/-- C6: for every decodable request whose method name has no dot, a
leading dot, or a trailing dot, processRequest produces the
MethodNotFound (-32601) error response carrying the identifier of
the inbound request. -/
theorem C6_malformed_method (reg : ServiceRegistry) (stack : String) (data : RawData)
    (req : Request) (hdec : DecodeRequest data = .ok req)
    (hmal : ('.' ∉ req.method.toList) ∨ req.method.toList.indexOf '.' = 0 ∨
            req.method.toList.indexOf '.' + 1 = req.method.toList.length) :
    processRequest reg stack data =
      { jsonrpc := "2.0", result := none,
        error := some { code := -32601, message := "Method not found",
                        data := .str req.method },
        id := req.id } := by
  simp [processRequest, hdec, parseMethod_eq_none req.method hmal, errorResponse,
        NewMethodNotFoundError, NewError, JSONRPCVersion]

/-- C6 witness: a dotless method name on a concrete decodable request
is answered with MethodNotFound and the request id. -/
theorem C6_witness :
    processRequest ⟨[]⟩ "stk"
      (.valid (.obj [("jsonrpc", .str "2.0"), ("method", .str "noDot"), ("id", .num 7)])) =
      { jsonrpc := "2.0", result := none,
        error := some { code := -32601, message := "Method not found",
                        data := .str "noDot" },
        id := .num 7 } :=
  C6_malformed_method ⟨[]⟩ "stk"
    (.valid (.obj [("jsonrpc", .str "2.0"), ("method", .str "noDot"), ("id", .num 7)]))
    { jsonrpc := "2.0", method := "noDot", params := none, id := .num 7 }
    rfl (Or.inl (by decide))

/-- C9: receiveResponse rejects every decoded response whose
identifier is not a JSON number with the invalid-ID-type failure; a
response is processed past the identifier checks only when the
identifier is a number whose uint64 value equals the sequence number
of the call. -/
theorem C9_receive_id_type (data : RawData) (seq : Nat) (resp : Response)
    (hdec : DecodeResponse data = .ok resp) :
    ((∀ n, resp.id ≠ .num n) → receiveResponse data seq = .invalidIDType) ∧
    (∀ e, receiveResponse data seq = .rpcError e →
      ∃ n, resp.id = .num n ∧ goUInt64 n = seq) ∧
    (∀ r, receiveResponse data seq = .success r →
      ∃ n, resp.id = .num n ∧ goUInt64 n = seq) := by
  have hrec : receiveResponse data seq =
      (match resp.id with
      | .num n =>
        if goUInt64 n ≠ seq then RecvResult.idMismatch seq (goUInt64 n)
        else
          match resp.error with
          | some e => RecvResult.rpcError e
          | none => RecvResult.success resp.result
      | _ => RecvResult.invalidIDType) := by
    unfold receiveResponse
    rw [hdec]
  rw [hrec]
  rcases hid : resp.id with _ | b | n | s2 | xs | fs
  case num =>
    refine ⟨fun hno => absurd rfl (hno n), ?_, ?_⟩
    · intro e he
      refine ⟨n, rfl, ?_⟩
      by_contra hm
      simp [hm] at he
    · intro r hr
      refine ⟨n, rfl, ?_⟩
      by_contra hm
      simp [hm] at hr
  all_goals
    refine ⟨fun _ => rfl, ?_, ?_⟩ <;> intro x hx <;> exact absurd hx (by simp)

/-- C9 witness: a concrete response with a string identifier is
rejected with the invalid-ID-type failure. -/
theorem C9_witness :
    receiveResponse
      (.valid (.obj [("jsonrpc", .str "2.0"), ("result", .num 1), ("id", .str "abc")])) 5 =
      .invalidIDType :=
  (C9_receive_id_type
      (.valid (.obj [("jsonrpc", .str "2.0"), ("result", .num 1), ("id", .str "abc")])) 5
      { jsonrpc := "2.0", result := some (.num 1), error := none, id := .str "abc" }
      rfl).1
    (fun _ h => Json.noConfusion h)

/-- C10: an empty raw parameter payload skips the unmarshal step and
invokes the handler on the zero-valued argument record, and a Call
on an empty payload can never fail with InvalidParams (-32602). -/
theorem C10_empty_params (reg : ServiceRegistry) (stack svc mth : String) :
    (∀ ms m, reg.services.lookup svc = some ms → ms.lookup mth = some m →
      ServiceRegistry.Call reg stack svc mth .empty = runHandler (m.handle none) stack) ∧
    (∀ e, ServiceRegistry.Call reg stack svc mth .empty = .error e → e.code ≠ -32602) := by
  constructor
  · intro ms m hs hm
    simp [ServiceRegistry.Call, hs, hm, ServiceRegistry.callMethod]
  · intro e he
    rcases hs : reg.services.lookup svc with _ | ms
    · simp [ServiceRegistry.Call, hs, NewMethodNotFoundError, NewError] at he
      subst he
      exact (by decide : (-32601 : Int) ≠ -32602)
    · rcases hm : ms.lookup mth with _ | m
      · simp [ServiceRegistry.Call, hs, hm, NewMethodNotFoundError, NewError] at he
        subst he
        exact (by decide : (-32601 : Int) ≠ -32602)
      · simp [ServiceRegistry.Call, hs, hm, ServiceRegistry.callMethod] at he
        rcases ho : m.handle none with p | msg | reply <;> rw [ho] at he
        · simp [runHandler, NewInternalError, NewError] at he
          subst he
          exact (by decide : (-32603 : Int) ≠ -32602)
        · simp [runHandler, NewInternalError, NewError] at he
          subst he
          exact (by decide : (-32603 : Int) ≠ -32602)
        · simp [runHandler] at he

/-- C10 witness: a concrete empty-payload dispatch reaches the
handler on the zero-valued record. -/
theorem C10_witness :
    ServiceRegistry.Call
      ⟨[("Arith", [("Add", ⟨fun _ => none, fun _ => .succeeds (.num 30)⟩)])]⟩
      "stk" "Arith" "Add" .empty =
      runHandler ((⟨fun _ => none, fun _ => .succeeds (.num 30)⟩ : MethodType).handle none)
        "stk" :=
  (C10_empty_params
      ⟨[("Arith", [("Add", ⟨fun _ => none, fun _ => .succeeds (.num 30)⟩)])]⟩
      "stk" "Arith" "Add").1
    [("Add", ⟨fun _ => none, fun _ => .succeeds (.num 30)⟩)]
    ⟨fun _ => none, fun _ => .succeeds (.num 30)⟩ rfl rfl

/-- C3 counterexample: a request whose method is non-empty but whose
version tag is the non-empty string 1.0 encodes successfully, yet
decoding the encoded bytes fails with InvalidRequest, so the round
trip does not return a Request at all. -/
theorem C3_counterexample :
    EncodeRequest { jsonrpc := "1.0", method := "A.B", params := none, id := .null } =
      .ok (.obj [("jsonrpc", .str "1.0"), ("method", .str "A.B"), ("id", .null)]) ∧
    DecodeRequest (.valid (.obj [("jsonrpc", .str "1.0"), ("method", .str "A.B"), ("id", .null)])) =
      .error { code := -32600, message := "Invalid Request",
               data := .str "invalid jsonrpc version: 1.0" } :=
  ⟨rfl, rfl⟩

end Rerpc
